import Mathlib

/-!
# The Eleventy configuration module `.eleventy.js`

A shallow embedding of the exported configuration function and of the
values it builds, followed by the properties of its registrations.

JavaScript is untyped, so one type parameter `J` stands for the values the
module receives from elsewhere and passes on untouched (imported filters,
shortcodes, plugins, items of a collection, what a host method returns).
The host object `eleventyConfig` is a record of methods over an arbitrary
host state `σ`; every method is taken to return normally.
-/

namespace Eleventy

/-! ## Regular expressions (the fragment used by `/^data-.*$/`) -/

/-- One term of a regular expression without flags. -/
inductive RegExpTerm where
  | assertStart
  | assertEnd
  | char (c : Char)
  | dotStar
  deriving DecidableEq, Repr

/-- A regular expression is a sequence of terms. -/
abbrev RegExp := List RegExpTerm

/-- Line terminators of ECMAScript: LF, CR, LS and PS. The dot does not match them. -/
def isLineTerminator (c : Char) : Bool :=
  c == '\n' || c == '\r' || c == Char.ofNat 0x2028 || c == Char.ofNat 0x2029

/-- Matching of `.*` followed by the continuation `k`: the continuation is tried
after every run of characters that are not line terminators. The flag tells
whether the current position is the start of the input. -/
def starDot (k : Bool → List Char → Bool) : Bool → List Char → Bool
  | b, [] => k b []
  | b, d :: s => k b (d :: s) || (!isLineTerminator d && starDot k false s)

/-- Does the sequence of terms match at the current position? -/
def matchHere : RegExp → Bool → List Char → Bool
  | [], _, _ => true
  | RegExpTerm.assertStart :: ts, b, s => b && matchHere ts b s
  | RegExpTerm.assertEnd :: ts, b, s => s.isEmpty && matchHere ts b s
  | RegExpTerm.char c :: ts, _, s =>
    match s with
    | [] => false
    | d :: s1 => c == d && matchHere ts false s1
  | RegExpTerm.dotStar :: ts, b, s => starDot (matchHere ts) b s

/-- Search for a match starting at any position of the input. -/
def testFrom (r : RegExp) : Bool → List Char → Bool
  | b, [] => matchHere r b []
  | b, c :: s => matchHere r b (c :: s) || testFrom r false s

/-- The method `RegExp.prototype.test`. -/
def RegExp.test (r : RegExp) (str : String) : Bool :=
  testFrom r true str.data

/-- The literal `/^data-.*$/`. -/
def dataRegExp : RegExp :=
  [RegExpTerm.assertStart, RegExpTerm.char 'd', RegExpTerm.char 'a', RegExpTerm.char 't',
   RegExpTerm.char 'a', RegExpTerm.char '-', RegExpTerm.dotStar, RegExpTerm.assertEnd]

/-! ## The markdown library value -/

/-- The object `markdownItOptions`. -/
structure MarkdownItOptions where
  html : Bool
  deriving DecidableEq, Repr

/-- The object `markdownItAnchorOptions`. -/
structure MarkdownItAnchorOptions where
  level : Nat
  permalink : Bool
  permalinkClass : String
  permalinkSymbol : String
  deriving DecidableEq, Repr

/-- An entry of `allowedAttributes`: a string or a regular expression. -/
inductive AllowedAttribute where
  | str (s : String)
  | regExp (r : RegExp)
  deriving DecidableEq, Repr

/-- The object `markdownItAttrsOpts`. -/
structure MarkdownItAttrsOpts where
  leftDelimiter : String
  rightDelimiter : String
  allowedAttributes : List AllowedAttribute
  deriving DecidableEq, Repr

/-- The options object handed to `use` together with a plugin. -/
inductive PluginOptions where
  | anchor (o : MarkdownItAnchorOptions)
  | attrs (o : MarkdownItAttrsOpts)
  deriving DecidableEq, Repr

/-- A markdown-it instance: the options it was created with and the plugins
applied to it, oldest first. -/
structure MarkdownIt (J : Type) where
  options : MarkdownItOptions
  used : List (J × PluginOptions)

/-- The factory `markdownIt(options)`. -/
def markdownIt {J : Type} (options : MarkdownItOptions) : MarkdownIt J :=
  { options := options, used := [] }

/-- The chaining method `md.use(plugin, options)`. -/
def MarkdownIt.use {J : Type} (md : MarkdownIt J) (plugin : J) (o : PluginOptions) :
    MarkdownIt J :=
  { md with used := md.used ++ [(plugin, o)] }

/-- The allow-list test of markdown-it-attrs: an attribute name passes when some
entry is strictly equal to it or is a regular expression that tests true on it. -/
def isAllowedAttribute (allowed : List AllowedAttribute) (attr : String) : Bool :=
  allowed.any fun a =>
    match a with
    | AllowedAttribute.str s => attr == s
    | AllowedAttribute.regExp r => r.test attr

/-! ## Collections -/

/-- The collections API handed to a collection callback. -/
structure CollectionsApi (J : Type) where
  getFilteredByGlob : String → List J

/-- A collection callback: an arrow function written in the module, or a value
that was imported. -/
inductive Callback (J : Type) where
  | fn (f : CollectionsApi J → List J)
  | imported (j : J)

/-- The glob built by the template literal of the blog collection. -/
def blogGlob (locale : String) : String :=
  "./site/" ++ locale ++ "/blog/*/*.md"

/-- The arrow function registered for the blog collection of a locale. -/
def blogCollection {J : Type} (locale : String) (collections : CollectionsApi J) : List J :=
  (collections.getFilteredByGlob (blogGlob locale)).reverse

/-! ## Imports and environment -/

/-- What the module obtains with `require`. -/
structure Imports (J : Type) where
  safeLoad : String → Except J J
  markdownItAnchor : J
  markdownItAttrs : J
  absolute : J
  trailingSlash : J
  leadingAndTrailingSlash : J
  i18n : J
  img : J
  video : J
  prettyUrls : J
  rssPlugin : J
  optimizeHtmlPlugin : J
  syntaxHighlight : J
  locales : List String
  feedsCollection : J
  tagsCollection : J
  typesCollection : J

/-- The production flag: `NODE_ENV` is strictly equal to the string production. -/
def isProduction (NODE_ENV : Option String) : Bool :=
  NODE_ENV == some "production"

/-! ## The host object and the exported function -/

/-- The methods of `eleventyConfig` that the module calls. -/
structure EleventyConfig (J σ : Type) where
  setUseGitIgnore : Bool → σ → J × σ
  setDataDeepMerge : Bool → σ → J × σ
  addPassthroughCopy : String → σ → J × σ
  addDataExtension : String → (String → Except J J) → σ → J × σ
  setLibrary : String → MarkdownIt J → σ → J × σ
  addPlugin : J → σ → J × σ
  addCollection : String → Callback J → σ → J × σ
  addFilter : String → J → σ → J × σ
  addShortcode : String → J → σ → J × σ
  addTransform : String → J → σ → J × σ

/-- The `dir` object of the returned settings. -/
structure Dir where
  input : String
  output : String
  deriving DecidableEq, Repr

/-- The object returned by the exported function. -/
structure Settings where
  markdownTemplateEngine : String
  dataTemplateEngine : String
  htmlTemplateEngine : String
  dir : Dir
  deriving DecidableEq, Repr

/-- The markdown library built by the module. -/
def md {J : Type} (m : Imports J) : MarkdownIt J :=
  let markdownItOptions : MarkdownItOptions := { html := true }
  let markdownItAnchorOptions : MarkdownItAnchorOptions :=
    { level := 2, permalink := true, permalinkClass := "headline__link",
      permalinkSymbol := "#" }
  let markdownItAttrsOpts : MarkdownItAttrsOpts :=
    { leftDelimiter := "\x7b:", rightDelimiter := "\x7d",
      allowedAttributes :=
        [AllowedAttribute.str "id", AllowedAttribute.str "class",
         AllowedAttribute.regExp dataRegExp] }
  ((markdownIt markdownItOptions).use m.markdownItAnchor
      (PluginOptions.anchor markdownItAnchorOptions)).use m.markdownItAttrs
    (PluginOptions.attrs markdownItAttrsOpts)

/-- The exported function, with the host state passed explicitly. What a host
method returns is dropped, as in the source. -/
def moduleExports {J σ : Type} (m : Imports J) (NODE_ENV : Option String)
    (eleventyConfig : EleventyConfig J σ) (s0 : σ) : Settings × σ :=
  let s := (eleventyConfig.setUseGitIgnore false s0).2
  let s := (eleventyConfig.setDataDeepMerge true s).2
  let s := (eleventyConfig.addPassthroughCopy "site/en/**/*.\x7bjpg,jpeg,png,webp\x7d" s).2
  let s := (eleventyConfig.addDataExtension "yml" (fun contents => m.safeLoad contents) s).2
  let s := (eleventyConfig.setLibrary "md" (md m) s).2
  let s := (eleventyConfig.addPlugin m.rssPlugin s).2
  let s := (eleventyConfig.addPlugin m.syntaxHighlight s).2
  let s := if isProduction NODE_ENV then (eleventyConfig.addPlugin m.optimizeHtmlPlugin s).2 else s
  let s := m.locales.foldl
    (fun s locale =>
      (eleventyConfig.addCollection ("blog-" ++ locale)
        (Callback.fn fun collections => blogCollection locale collections) s).2) s
  let s := (eleventyConfig.addCollection "feeds" (Callback.imported m.feedsCollection) s).2
  let s := (eleventyConfig.addCollection "tags" (Callback.imported m.tagsCollection) s).2
  let s := (eleventyConfig.addCollection "types" (Callback.imported m.typesCollection) s).2
  let s := (eleventyConfig.addFilter "absolute" m.absolute s).2
  let s := (eleventyConfig.addFilter "trailingSlash" m.trailingSlash s).2
  let s := (eleventyConfig.addFilter "leadingAndTrailingSlash" m.leadingAndTrailingSlash s).2
  let s := (eleventyConfig.addFilter "i18n" m.i18n s).2
  let s := (eleventyConfig.addShortcode "img" m.img s).2
  let s := (eleventyConfig.addShortcode "video" m.video s).2
  let s := (eleventyConfig.addTransform "prettyUrls" m.prettyUrls s).2
  ({ markdownTemplateEngine := "njk"
     dataTemplateEngine := "njk"
     htmlTemplateEngine := "njk"
     dir := { input := "site", output := "dist" } }, s)

/-! ## A host that records the calls it receives -/

/-- One call received by the host, with its arguments. -/
inductive Call (J : Type) where
  | setUseGitIgnore (b : Bool)
  | setDataDeepMerge (b : Bool)
  | addPassthroughCopy (glob : String)
  | addDataExtension (ext : String) (load : String → Except J J)
  | setLibrary (name : String) (lib : MarkdownIt J)
  | addPlugin (p : J)
  | addCollection (name : String) (cb : Callback J)
  | addFilter (name : String) (f : J)
  | addShortcode (name : String) (f : J)
  | addTransform (name : String) (f : J)

/-- The host whose state is the list of calls received so far, oldest first;
every method returns `ret`. -/
def recorder {J : Type} (ret : J) : EleventyConfig J (List (Call J)) where
  setUseGitIgnore b log := (ret, log ++ [Call.setUseGitIgnore b])
  setDataDeepMerge b log := (ret, log ++ [Call.setDataDeepMerge b])
  addPassthroughCopy g log := (ret, log ++ [Call.addPassthroughCopy g])
  addDataExtension e p log := (ret, log ++ [Call.addDataExtension e p])
  setLibrary n l log := (ret, log ++ [Call.setLibrary n l])
  addPlugin p log := (ret, log ++ [Call.addPlugin p])
  addCollection n c log := (ret, log ++ [Call.addCollection n c])
  addFilter n f log := (ret, log ++ [Call.addFilter n f])
  addShortcode n f log := (ret, log ++ [Call.addShortcode n f])
  addTransform n f log := (ret, log ++ [Call.addTransform n f])

/-- The calls made by the exported function, in order. -/
def calls {J : Type} (m : Imports J) (NODE_ENV : Option String) (ret : J) : List (Call J) :=
  (moduleExports m NODE_ENV (recorder ret) []).2

/-- Arguments of the `setUseGitIgnore` calls of a log. -/
def useGitIgnoreCalls {J : Type} (log : List (Call J)) : List Bool :=
  log.filterMap fun c => match c with
    | Call.setUseGitIgnore b => some b
    | _ => none

/-- Arguments of the `setDataDeepMerge` calls of a log. -/
def dataDeepMergeCalls {J : Type} (log : List (Call J)) : List Bool :=
  log.filterMap fun c => match c with
    | Call.setDataDeepMerge b => some b
    | _ => none

/-- Patterns of the `addPassthroughCopy` calls of a log. -/
def passthroughCopies {J : Type} (log : List (Call J)) : List String :=
  log.filterMap fun c => match c with
    | Call.addPassthroughCopy g => some g
    | _ => none

/-- Arguments of the `addDataExtension` calls of a log. -/
def dataExtensions {J : Type} (log : List (Call J)) : List (String × (String → Except J J)) :=
  log.filterMap fun c => match c with
    | Call.addDataExtension e p => some (e, p)
    | _ => none

/-- Arguments of the `setLibrary` calls of a log. -/
def libraries {J : Type} (log : List (Call J)) : List (String × MarkdownIt J) :=
  log.filterMap fun c => match c with
    | Call.setLibrary n l => some (n, l)
    | _ => none

/-- Arguments of the `addPlugin` calls of a log. -/
def plugins {J : Type} (log : List (Call J)) : List J :=
  log.filterMap fun c => match c with
    | Call.addPlugin p => some p
    | _ => none

/-- Arguments of the `addCollection` calls of a log. -/
def collections {J : Type} (log : List (Call J)) : List (String × Callback J) :=
  log.filterMap fun c => match c with
    | Call.addCollection n cb => some (n, cb)
    | _ => none

/-- Arguments of the `addFilter` calls of a log. -/
def filters {J : Type} (log : List (Call J)) : List (String × J) :=
  log.filterMap fun c => match c with
    | Call.addFilter n f => some (n, f)
    | _ => none

/-- Arguments of the `addShortcode` calls of a log. -/
def shortcodes {J : Type} (log : List (Call J)) : List (String × J) :=
  log.filterMap fun c => match c with
    | Call.addShortcode n f => some (n, f)
    | _ => none

/-- Arguments of the `addTransform` calls of a log. -/
def transforms {J : Type} (log : List (Call J)) : List (String × J) :=
  log.filterMap fun c => match c with
    | Call.addTransform n f => some (n, f)
    | _ => none

/-- The blog collection calls, one per locale in list order. -/
def blogCalls {J : Type} (locales : List String) : List (Call J) :=
  locales.map fun locale =>
    Call.addCollection ("blog-" ++ locale)
      (Callback.fn fun collections => blogCollection locale collections)

/-! ## Glob patterns

The file search of the host decides which files a passthrough pattern names.
It is modelled for the constructs the pattern of this module uses: literal
characters, `*` inside a path segment, the segment `**` and one level of brace
alternatives. Characters are compared exactly and a wildcard also matches a
name that begins with a dot.
-/

/-- Split a path or a pattern at every slash. -/
def splitSlash : List Char → List (List Char)
  | [] => [[]]
  | c :: cs =>
    if c = '/' then [] :: splitSlash cs
    else
      match splitSlash cs with
      | [] => [[c]]
      | seg :: segs => (c :: seg) :: segs

/-- Brace expansion. The first argument is `none` outside braces; inside braces
it holds the alternatives read so far and the one being read. An opening brace
that is never closed is kept as text. -/
def expandBraces : Option (List (List Char) × List Char) → List Char → List (List Char)
  | none, [] => [[]]
  | some (alts, cur), [] => ['\x7b' :: List.intercalate [','] (alts ++ [cur])]
  | none, c :: cs =>
    if c = '\x7b' then expandBraces (some ([], [])) cs
    else (expandBraces none cs).map fun rest => c :: rest
  | some (alts, cur), c :: cs =>
    if c = ',' then expandBraces (some (alts ++ [cur], [])) cs
    else if c = '\x7d' then
      (alts ++ [cur]).flatMap fun alt => (expandBraces none cs).map fun rest => alt ++ rest
    else expandBraces (some (alts, cur ++ [c])) cs

/-- The wildcard `*` followed by the continuation `k`, inside one segment. -/
def starSegment (k : List Char → Bool) : List Char → Bool
  | [] => k []
  | c :: s => k (c :: s) || starSegment k s

/-- Does a pattern segment match a path segment? -/
def matchSegment : List Char → List Char → Bool
  | [], s => s.isEmpty
  | p :: ps, s =>
    if p = '*' then starSegment (matchSegment ps) s
    else
      match s with
      | [] => false
      | c :: s1 => p == c && matchSegment ps s1

/-- The segment `**` followed by the continuation `k`: any number of segments. -/
def globstar (k : List (List Char) → Bool) : List (List Char) → Bool
  | [] => k []
  | seg :: segs => k (seg :: segs) || globstar k segs

/-- Does a list of pattern segments match a list of path segments? -/
def matchSegments : List (List Char) → List (List Char) → Bool
  | [], segs => segs.isEmpty
  | p :: ps, segs =>
    if p = ['*', '*'] then globstar (matchSegments ps) segs
    else
      match segs with
      | [] => false
      | seg :: rest => matchSegment p seg && matchSegments ps rest

/-- Does the glob pattern name the path? -/
def globMatch (pattern path : String) : Bool :=
  (expandBraces none pattern.data).any fun p =>
    matchSegments (splitSlash p) (splitSlash path.data)

/-- Is the path named by one of the passthrough patterns of a log? -/
def copiedByPassthrough {J : Type} (log : List (Call J)) (path : String) : Bool :=
  (passthroughCopies log).any fun g => globMatch g path

/-- An instance of the imports over strings, with the locales en and es. -/
def sampleImports : Imports String where
  safeLoad contents := if contents = "" then Except.error "empty" else Except.ok contents
  markdownItAnchor := "markdown-it-anchor"
  markdownItAttrs := "markdown-it-attrs"
  absolute := "absolute"
  trailingSlash := "trailingSlash"
  leadingAndTrailingSlash := "leadingAndTrailingSlash"
  i18n := "i18n"
  img := "img"
  video := "video"
  prettyUrls := "prettyUrls"
  rssPlugin := "rss"
  optimizeHtmlPlugin := "optimize-html"
  syntaxHighlight := "syntaxhighlight"
  locales := ["en", "es"]
  feedsCollection := "feeds"
  tagsCollection := "tags"
  typesCollection := "types"

/-! ## The log in closed form -/

theorem foldl_record {J : Type} (ret : J) (locales : List String) (log : List (Call J)) :
    locales.foldl
      (fun s locale =>
        ((recorder ret).addCollection ("blog-" ++ locale)
          (Callback.fn fun collections => blogCollection locale collections) s).2) log
      = log ++ blogCalls locales := by
  induction locales generalizing log with
  | nil => simp [blogCalls]
  | cons l ls ih =>
    rw [List.foldl_cons, ih]
    simp [blogCalls, recorder]

theorem calls_eq {J : Type} (m : Imports J) (NODE_ENV : Option String) (ret : J) :
    calls m NODE_ENV ret =
      [Call.setUseGitIgnore false, Call.setDataDeepMerge true,
       Call.addPassthroughCopy "site/en/**/*.\x7bjpg,jpeg,png,webp\x7d",
       Call.addDataExtension "yml" (fun contents => m.safeLoad contents),
       Call.setLibrary "md" (md m),
       Call.addPlugin m.rssPlugin, Call.addPlugin m.syntaxHighlight]
      ++ (if isProduction NODE_ENV then [Call.addPlugin m.optimizeHtmlPlugin] else [])
      ++ blogCalls m.locales
      ++ [Call.addCollection "feeds" (Callback.imported m.feedsCollection),
          Call.addCollection "tags" (Callback.imported m.tagsCollection),
          Call.addCollection "types" (Callback.imported m.typesCollection),
          Call.addFilter "absolute" m.absolute,
          Call.addFilter "trailingSlash" m.trailingSlash,
          Call.addFilter "leadingAndTrailingSlash" m.leadingAndTrailingSlash,
          Call.addFilter "i18n" m.i18n,
          Call.addShortcode "img" m.img,
          Call.addShortcode "video" m.video,
          Call.addTransform "prettyUrls" m.prettyUrls] := by
  unfold calls moduleExports
  simp only [foldl_record]
  cases isProduction NODE_ENV <;> simp [recorder]

theorem filterMap_some_fun {α β : Type} (f : α → β) (l : List α) :
    l.filterMap (fun x => some (f x)) = l.map f := by
  induction l with
  | nil => rfl
  | cons a l ih => simp [List.filterMap_cons, ih]

theorem collections_calls {J : Type} (m : Imports J) (NODE_ENV : Option String) (ret : J) :
    collections (calls m NODE_ENV ret) =
      m.locales.map (fun locale =>
        ("blog-" ++ locale, Callback.fn fun api => blogCollection locale api))
      ++ [("feeds", Callback.imported m.feedsCollection),
          ("tags", Callback.imported m.tagsCollection),
          ("types", Callback.imported m.typesCollection)] := by
  rw [calls_eq]
  cases isProduction NODE_ENV <;>
    simp [collections, blogCalls, List.filterMap_append, List.filterMap_map, Function.comp_def,
      filterMap_some_fun]

theorem isProduction_iff (NODE_ENV : Option String) :
    isProduction NODE_ENV = true ↔ NODE_ENV = some "production" := by
  simp [isProduction]

theorem plugins_calls {J : Type} (m : Imports J) (NODE_ENV : Option String) (ret : J) :
    plugins (calls m NODE_ENV ret) =
      [m.rssPlugin, m.syntaxHighlight]
        ++ (if isProduction NODE_ENV then [m.optimizeHtmlPlugin] else []) := by
  rw [calls_eq]
  cases isProduction NODE_ENV <;>
    simp [plugins, blogCalls, List.filterMap_append, List.filterMap_map, Function.comp_def]

theorem blog_name_inj (a b : String) (h : "blog-" ++ a = "blog-" ++ b) : a = b := by
  have h1 := congrArg String.data h
  simp only [String.data_append] at h1
  exact String.ext (List.append_cancel_left h1)

theorem blog_name_ne_fixed (a : String) :
    "blog-" ++ a ≠ "feeds" ∧ "blog-" ++ a ≠ "tags" ∧ "blog-" ++ a ≠ "types" := by
  refine ⟨?_, ?_, ?_⟩ <;> intro h <;> have h1 := congrArg String.data h <;>
    simp [String.data_append] at h1

theorem blogGlob_inj (a b : String) (h : blogGlob a = blogGlob b) : a = b := by
  have h1 := congrArg String.data h
  simp only [blogGlob, String.data_append] at h1
  rw [List.append_assoc, List.append_assoc] at h1
  have h2 := List.append_cancel_left h1
  exact String.ext (List.append_cancel_right h2)

/-! ## The regular expression `/^data-.*$/` -/

theorem starDot_assertEnd (b : Bool) (s : List Char) :
    starDot (matchHere [RegExpTerm.assertEnd]) b s = true ↔
      ∀ c ∈ s, isLineTerminator c = false := by
  induction s generalizing b with
  | nil => simp [starDot, matchHere]
  | cons d s ih =>
    have hk : matchHere [RegExpTerm.assertEnd] b (d :: s) = false := by simp [matchHere]
    rw [starDot, hk]
    simp [ih]

theorem testFrom_assertStart_false (ts : RegExp) (s : List Char) :
    testFrom (RegExpTerm.assertStart :: ts) false s = false := by
  induction s with
  | nil => simp [testFrom, matchHere]
  | cons d s ih => simp [testFrom, matchHere, ih]

theorem testFrom_assertStart (ts : RegExp) (s : List Char) :
    testFrom (RegExpTerm.assertStart :: ts) true s = matchHere ts true s := by
  cases s with
  | nil => simp [testFrom, matchHere]
  | cons d s => simp [testFrom, matchHere, testFrom_assertStart_false]

theorem matchHere_char (c : Char) (ts : RegExp) (b : Bool) (s : List Char) :
    matchHere (RegExpTerm.char c :: ts) b s = true ↔
      ∃ s1, s = c :: s1 ∧ matchHere ts false s1 = true := by
  cases s with
  | nil => simp [matchHere]
  | cons d s =>
    simp only [matchHere, Bool.and_eq_true, beq_iff_eq, List.cons.injEq]
    constructor
    · rintro ⟨h1, h2⟩
      exact ⟨s, ⟨h1.symm, rfl⟩, h2⟩
    · rintro ⟨s1, ⟨h1, h2⟩, h3⟩
      exact ⟨h1.symm, h2 ▸ h3⟩

theorem test_dataRegExp (attr : String) :
    dataRegExp.test attr = true ↔
      ∃ rest : String, attr = "data-" ++ rest ∧ ∀ c ∈ rest.data, isLineTerminator c = false := by
  unfold RegExp.test dataRegExp
  rw [testFrom_assertStart]
  simp only [matchHere_char]
  constructor
  · rintro ⟨s1, h1, s2, h2, s3, h3, s4, h4, s5, h5, h6⟩
    subst h5 h4 h3 h2
    refine ⟨String.mk s5, ?_, ?_⟩
    · apply String.ext
      rw [h1, String.data_append]
      rfl
    · exact (starDot_assertEnd false s5).mp h6
  · rintro ⟨rest, h1, h2⟩
    subst h1
    refine ⟨_, rfl, _, rfl, _, rfl, _, rfl, rest.data, rfl, ?_⟩
    exact (starDot_assertEnd false rest.data).mpr h2

theorem libraries_calls {J : Type} (m : Imports J) (NODE_ENV : Option String) (ret : J) :
    libraries (calls m NODE_ENV ret) = [("md", md m)] := by
  rw [calls_eq]
  cases isProduction NODE_ENV <;>
    simp [libraries, blogCalls, List.filterMap_append, List.filterMap_map, Function.comp_def]

/-! ## The passthrough pattern -/

theorem matchSegment_literal (p s : List Char) (hp : '*' ∉ p)
    (h : matchSegment p s = true) : s = p := by
  induction p generalizing s with
  | nil =>
    cases s with
    | nil => rfl
    | cons c s => simp [matchSegment] at h
  | cons a p ih =>
    have ha : a ≠ '*' := fun e => hp (e ▸ List.mem_cons_self _ _)
    have hp2 : '*' ∉ p := fun e => hp (List.mem_cons_of_mem _ e)
    cases s with
    | nil => simp [matchSegment, ha] at h
    | cons c s =>
      simp only [matchSegment, ha, if_false, Bool.and_eq_true, beq_iff_eq] at h
      rw [h.1, ih s hp2 h.2]

theorem matchSegments_site_en (ps segs : List (List Char))
    (h : matchSegments ("site".data :: "en".data :: ps) segs = true) :
    segs.take 2 = ["site".data, "en".data] := by
  cases segs with
  | nil => simp [matchSegments] at h
  | cons s1 segs =>
    have n1 : ¬ ("site".data = ['*', '*']) := by decide
    simp only [matchSegments, n1, if_false, Bool.and_eq_true] at h
    obtain ⟨h1, h2⟩ := h
    cases segs with
    | nil => simp [matchSegments] at h2
    | cons s2 segs =>
      have n2 : ¬ ("en".data = ['*', '*']) := by decide
      simp only [matchSegments, n2, if_false, Bool.and_eq_true] at h2
      have e1 := matchSegment_literal "site".data s1 (by decide) h1
      have e2 := matchSegment_literal "en".data s2 (by decide) h2.1
      simp [e1, e2]

theorem globMatch_passthrough_under_en (path : String)
    (h : globMatch "site/en/**/*.\x7bjpg,jpeg,png,webp\x7d" path = true) :
    (splitSlash path.data).take 2 = ["site".data, "en".data] := by
  have hx : expandBraces none "site/en/**/*.\x7bjpg,jpeg,png,webp\x7d".data =
      ["site/en/**/*.jpg".data, "site/en/**/*.jpeg".data, "site/en/**/*.png".data,
       "site/en/**/*.webp".data] := by decide
  have s1 : splitSlash "site/en/**/*.jpg".data =
      ["site".data, "en".data, "**".data, "*.jpg".data] := by decide
  have s2 : splitSlash "site/en/**/*.jpeg".data =
      ["site".data, "en".data, "**".data, "*.jpeg".data] := by decide
  have s3 : splitSlash "site/en/**/*.png".data =
      ["site".data, "en".data, "**".data, "*.png".data] := by decide
  have s4 : splitSlash "site/en/**/*.webp".data =
      ["site".data, "en".data, "**".data, "*.webp".data] := by decide
  unfold globMatch at h
  rw [hx] at h
  simp only [List.any_cons, List.any_nil, Bool.or_false, Bool.or_eq_true, s1, s2, s3, s4] at h
  rcases h with h | h | h | h <;> exact matchSegments_site_en _ _ h

theorem passthroughCopies_calls {J : Type} (m : Imports J) (NODE_ENV : Option String)
    (ret : J) :
    passthroughCopies (calls m NODE_ENV ret) = ["site/en/**/*.\x7bjpg,jpeg,png,webp\x7d"] := by
  rw [calls_eq]
  cases isProduction NODE_ENV <;>
    simp [passthroughCopies, blogCalls, List.filterMap_append, List.filterMap_map,
      Function.comp_def]

/-! ## Properties of the registrations -/

/-- C1: for every locale of the imported list, a collection named `blog-<locale>`
is registered, and every callback registered under that name is the arrow
function that returns the reverse of `getFilteredByGlob('./site/<locale>/blog/*/*.md')`:
same length, same elements, the element at index `i` being the filtered list's
element at index `n-1-i`. The glob is built from that locale alone: the result
depends on the API only through its answer for that glob, and another locale
gives another glob. -/
theorem blog_collection_reverses_filtered_glob {J : Type} (m : Imports J)
    (NODE_ENV : Option String) (ret : J) (locale : String) (h : locale ∈ m.locales) :
    (∃ cb, ("blog-" ++ locale, cb) ∈ collections (calls m NODE_ENV ret)) ∧
    (∀ cb, ("blog-" ++ locale, cb) ∈ collections (calls m NODE_ENV ret) →
      ∃ f, cb = Callback.fn f ∧
        (∀ api : CollectionsApi J,
          f api = (api.getFilteredByGlob ("./site/" ++ locale ++ "/blog/*/*.md")).reverse ∧
          (f api).length = (api.getFilteredByGlob ("./site/" ++ locale ++ "/blog/*/*.md")).length ∧
          (f api).Perm (api.getFilteredByGlob ("./site/" ++ locale ++ "/blog/*/*.md")) ∧
          ∀ i, i < (api.getFilteredByGlob ("./site/" ++ locale ++ "/blog/*/*.md")).length →
            (f api)[i]? =
              (api.getFilteredByGlob ("./site/" ++ locale ++ "/blog/*/*.md"))[
                (api.getFilteredByGlob ("./site/" ++ locale ++ "/blog/*/*.md")).length - 1 - i]?) ∧
        (∀ api1 api2 : CollectionsApi J,
          api1.getFilteredByGlob (blogGlob locale) = api2.getFilteredByGlob (blogGlob locale) →
            f api1 = f api2)) ∧
    (∀ other : String, blogGlob other = blogGlob locale → other = locale) := by
  refine ⟨?_, ?_, fun other ho => blogGlob_inj other locale ho⟩
  · refine ⟨Callback.fn fun api => blogCollection locale api, ?_⟩
    rw [collections_calls]
    exact List.mem_append_left _ (List.mem_map.mpr ⟨locale, h, rfl⟩)
  · intro cb hcb
    rw [collections_calls] at hcb
    rcases List.mem_append.mp hcb with h1 | h1
    · obtain ⟨l, _, hl⟩ := List.mem_map.mp h1
      have hname : "blog-" ++ l = "blog-" ++ locale := congrArg Prod.fst hl
      have hl2 : l = locale := blog_name_inj l locale hname
      subst hl2
      refine ⟨fun api => blogCollection l api, (congrArg Prod.snd hl).symm, ?_, ?_⟩
      · intro api
        refine ⟨rfl, ?_, ?_, ?_⟩
        · simp [blogCollection, blogGlob]
        · exact List.reverse_perm _
        · intro i hi
          simp only [blogCollection, blogGlob]
          rw [List.getElem?_reverse hi]
      · intro api1 api2 h12
        simp only [blogCollection, h12]
    · exfalso
      obtain ⟨hf, ht, hy⟩ := blog_name_ne_fixed locale
      simp only [List.mem_cons, Prod.mk.injEq, List.mem_nil_iff, or_false] at h1
      rcases h1 with h2 | h2 | h2
      · exact hf h2.1
      · exact ht h2.1
      · exact hy h2.1

/-- C2: the plugins registered are rss, then syntax-highlight, then optimize-html
exactly when `NODE_ENV` is the string production; a third plugin is registered
if and only if `NODE_ENV` is that string, and with `NODE_ENV` unset, or set to
development or to Production, only the first two are. -/
theorem optimize_html_iff_production {J : Type} (m : Imports J) (NODE_ENV : Option String)
    (ret : J) :
    plugins (calls m NODE_ENV ret) =
      [m.rssPlugin, m.syntaxHighlight]
        ++ (if NODE_ENV = some "production" then [m.optimizeHtmlPlugin] else []) ∧
    (isProduction NODE_ENV = true ↔ NODE_ENV = some "production") ∧
    ((plugins (calls m NODE_ENV ret)).length = 3 ↔ NODE_ENV = some "production") ∧
    ((plugins (calls m NODE_ENV ret)).length = 2 ↔ NODE_ENV ≠ some "production") ∧
    plugins (calls m (some "production") ret)
      = [m.rssPlugin, m.syntaxHighlight, m.optimizeHtmlPlugin] ∧
    plugins (calls m none ret) = [m.rssPlugin, m.syntaxHighlight] ∧
    plugins (calls m (some "development") ret) = [m.rssPlugin, m.syntaxHighlight] ∧
    plugins (calls m (some "Production") ret) = [m.rssPlugin, m.syntaxHighlight] := by
  refine ⟨?_, isProduction_iff NODE_ENV, ?_, ?_, ?_, ?_, ?_, ?_⟩
  · rw [plugins_calls]
    by_cases hp : NODE_ENV = some "production" <;> simp [isProduction, hp]
  · rw [plugins_calls]
    by_cases hp : NODE_ENV = some "production" <;> simp [isProduction, hp]
  · rw [plugins_calls]
    by_cases hp : NODE_ENV = some "production" <;> simp [isProduction, hp]
  · rw [plugins_calls]; simp [isProduction]
  · rw [plugins_calls]; simp [isProduction]
  · rw [plugins_calls]; simp [isProduction]
  · rw [plugins_calls]; simp [isProduction]

/-- C3: whatever the host object, its state, what its methods return, the
imports (the locales list among them) and `NODE_ENV`, the exported function
returns the settings with the three template engines njk, input directory site
and output directory dist; two runs in different surroundings return the same
settings. -/
theorem returned_settings_constant {J σ J2 σ2 : Type} (m : Imports J) (NODE_ENV : Option String)
    (eleventyConfig : EleventyConfig J σ) (s0 : σ) (m2 : Imports J2)
    (NODE_ENV2 : Option String) (eleventyConfig2 : EleventyConfig J2 σ2) (t0 : σ2) :
    (moduleExports m NODE_ENV eleventyConfig s0).1 =
      { markdownTemplateEngine := "njk", dataTemplateEngine := "njk",
        htmlTemplateEngine := "njk", dir := { input := "site", output := "dist" } } ∧
    (moduleExports m NODE_ENV eleventyConfig s0).1.markdownTemplateEngine = "njk" ∧
    (moduleExports m NODE_ENV eleventyConfig s0).1.dataTemplateEngine = "njk" ∧
    (moduleExports m NODE_ENV eleventyConfig s0).1.htmlTemplateEngine = "njk" ∧
    (moduleExports m NODE_ENV eleventyConfig s0).1.dir.input = "site" ∧
    (moduleExports m NODE_ENV eleventyConfig s0).1.dir.output = "dist" ∧
    (moduleExports m NODE_ENV eleventyConfig s0).1 =
      (moduleExports m2 NODE_ENV2 eleventyConfig2 t0).1 :=
  ⟨rfl, rfl, rfl, rfl, rfl, rfl, rfl⟩

/-- C4: exactly one data extension is registered, for yml, and its loader
applied to any contents gives what `yaml.safeLoad` gives on them, a value as
well as a failure, unchanged. -/
theorem yml_loader_is_safeLoad {J : Type} (m : Imports J) (NODE_ENV : Option String)
    (ret : J) :
    ∃ load, dataExtensions (calls m NODE_ENV ret) = [("yml", load)] ∧
      ∀ contents : String, load contents = m.safeLoad contents := by
  refine ⟨fun contents => m.safeLoad contents, ?_, fun _ => rfl⟩
  rw [calls_eq]
  cases isProduction NODE_ENV <;>
    simp [dataExtensions, blogCalls, List.filterMap_append, List.filterMap_map,
      Function.comp_def]

/-- C5: the filters registered are exactly absolute, trailingSlash,
leadingAndTrailingSlash and i18n, the shortcodes exactly img and video, the
transforms exactly prettyUrls, each bound to the import of the same name,
whatever the environment and the locales list. -/
theorem filters_shortcodes_transforms {J : Type} (m : Imports J) (NODE_ENV : Option String)
    (ret : J) :
    filters (calls m NODE_ENV ret) =
      [("absolute", m.absolute), ("trailingSlash", m.trailingSlash),
       ("leadingAndTrailingSlash", m.leadingAndTrailingSlash), ("i18n", m.i18n)] ∧
    shortcodes (calls m NODE_ENV ret) = [("img", m.img), ("video", m.video)] ∧
    transforms (calls m NODE_ENV ret) = [("prettyUrls", m.prettyUrls)] := by
  rw [calls_eq]
  cases isProduction NODE_ENV <;>
    simp [filters, shortcodes, transforms, blogCalls, List.filterMap_append,
      List.filterMap_map, Function.comp_def]

/-- C7: whatever the environment and the locales list, `setUseGitIgnore` is called
exactly once, with false, and `setDataDeepMerge` exactly once, with true. -/
theorem gitignore_off_deep_merge_on {J : Type} (m : Imports J) (NODE_ENV : Option String)
    (ret : J) :
    useGitIgnoreCalls (calls m NODE_ENV ret) = [false] ∧
    dataDeepMergeCalls (calls m NODE_ENV ret) = [true] := by
  rw [calls_eq]
  cases isProduction NODE_ENV <;>
    simp [useGitIgnoreCalls, dataDeepMergeCalls, blogCalls, List.filterMap_append,
      List.filterMap_map, Function.comp_def]

/-- C9: the `addCollection` calls are `blog-<locale>` for each locale in list
order, then feeds, tags and types bound to the imported collection functions:
`k + 3` calls for `k` locales, and exactly the three fixed ones when the list
is empty. -/
theorem collections_in_order {J : Type} (m : Imports J) (NODE_ENV : Option String) (ret : J) :
    collections (calls m NODE_ENV ret) =
      m.locales.map (fun locale =>
        ("blog-" ++ locale, Callback.fn fun api => blogCollection locale api))
      ++ [("feeds", Callback.imported m.feedsCollection),
          ("tags", Callback.imported m.tagsCollection),
          ("types", Callback.imported m.typesCollection)] ∧
    (collections (calls m NODE_ENV ret)).length = m.locales.length + 3 ∧
    (collections (calls m NODE_ENV ret)).map Prod.fst =
      m.locales.map (fun locale => "blog-" ++ locale) ++ ["feeds", "tags", "types"] ∧
    collections (calls { m with locales := [] } NODE_ENV ret) =
      [("feeds", Callback.imported m.feedsCollection),
       ("tags", Callback.imported m.tagsCollection),
       ("types", Callback.imported m.typesCollection)] := by
  refine ⟨collections_calls m NODE_ENV ret, ?_, ?_, ?_⟩
  · rw [collections_calls]; simp
  · rw [collections_calls]; simp [Function.comp_def]
  · rw [collections_calls]; simp

/-- C8: `setLibrary` is called exactly once, under the key md, with a markdown-it
instance created with `html: true` to which the anchor plugin (level 2,
permalink true, class `headline__link`, symbol `#`) and then the attrs plugin
(delimiters `{:` and `}`) were applied, in that order; under the allow-list of
the attrs plugin an attribute name passes if and only if it is id, it is class,
or it is `data-` followed by characters none of which is a line terminator. -/
theorem markdown_library_configuration {J : Type} (m : Imports J) (NODE_ENV : Option String)
    (ret : J) :
    ∃ (lib : MarkdownIt J) (o : MarkdownItAttrsOpts),
      libraries (calls m NODE_ENV ret) = [("md", lib)] ∧
      lib.options = { html := true } ∧
      lib.used =
        [(m.markdownItAnchor,
          PluginOptions.anchor
            { level := 2, permalink := true, permalinkClass := "headline__link",
              permalinkSymbol := "#" }),
         (m.markdownItAttrs, PluginOptions.attrs o)] ∧
      o.leftDelimiter = "\x7b:" ∧ o.rightDelimiter = "\x7d" ∧
      o.allowedAttributes =
        [AllowedAttribute.str "id", AllowedAttribute.str "class",
         AllowedAttribute.regExp dataRegExp] ∧
      ∀ attr : String,
        isAllowedAttribute o.allowedAttributes attr = true ↔
          (attr = "id" ∨ attr = "class" ∨
            ∃ rest : String, attr = "data-" ++ rest ∧
              ∀ c ∈ rest.data, isLineTerminator c = false) := by
  refine ⟨md m, _, libraries_calls m NODE_ENV ret, rfl, rfl, rfl, rfl, rfl, ?_⟩
  intro attr
  simp only [isAllowedAttribute, List.any_cons, List.any_nil, Bool.or_false, Bool.or_eq_true,
    beq_iff_eq, test_dataRegExp]

/-- C6, as the code behaves: the only passthrough pattern registered is the one
under `site/en`, whatever the locales list; every path it names has `site` and
`en` as its first two segments, so with the locales en and es the image
`site/es/blog/post/photo.png` is named by no registered pattern, while
`site/en/blog/post/photo.png` is. -/
theorem passthrough_copy_only_under_en {J : Type} (m : Imports J) (NODE_ENV : Option String)
    (ret : J) :
    passthroughCopies (calls m NODE_ENV ret) = ["site/en/**/*.\x7bjpg,jpeg,png,webp\x7d"] ∧
    (∀ path : String, copiedByPassthrough (calls m NODE_ENV ret) path = true →
      (splitSlash path.data).take 2 = ["site".data, "en".data]) ∧
    copiedByPassthrough (calls { m with locales := ["en", "es"] } NODE_ENV ret)
      "site/es/blog/post/photo.png" = false ∧
    copiedByPassthrough (calls { m with locales := ["en", "es"] } NODE_ENV ret)
      "site/en/blog/post/photo.png" = true := by
  refine ⟨passthroughCopies_calls m NODE_ENV ret, ?_, ?_, ?_⟩
  · intro path h
    unfold copiedByPassthrough at h
    rw [passthroughCopies_calls] at h
    simp only [List.any_cons, List.any_nil, Bool.or_false] at h
    exact globMatch_passthrough_under_en path h
  · unfold copiedByPassthrough
    rw [passthroughCopies_calls]
    decide
  · unfold copiedByPassthrough
    rw [passthroughCopies_calls]
    decide

/-- C1 at the locale es of the sample imports. -/
theorem blog_collection_reverses_filtered_glob_witness :
    "es" ∈ sampleImports.locales ∧
    ((∃ cb, ("blog-" ++ "es", cb) ∈ collections (calls sampleImports none "undefined")) ∧
    (∀ cb, ("blog-" ++ "es", cb) ∈ collections (calls sampleImports none "undefined") →
      ∃ f, cb = Callback.fn f ∧
        (∀ api : CollectionsApi String,
          f api = (api.getFilteredByGlob ("./site/" ++ "es" ++ "/blog/*/*.md")).reverse ∧
          (f api).length = (api.getFilteredByGlob ("./site/" ++ "es" ++ "/blog/*/*.md")).length ∧
          (f api).Perm (api.getFilteredByGlob ("./site/" ++ "es" ++ "/blog/*/*.md")) ∧
          ∀ i, i < (api.getFilteredByGlob ("./site/" ++ "es" ++ "/blog/*/*.md")).length →
            (f api)[i]? =
              (api.getFilteredByGlob ("./site/" ++ "es" ++ "/blog/*/*.md"))[
                (api.getFilteredByGlob ("./site/" ++ "es" ++ "/blog/*/*.md")).length - 1 - i]?) ∧
        (∀ api1 api2 : CollectionsApi String,
          api1.getFilteredByGlob (blogGlob "es") = api2.getFilteredByGlob (blogGlob "es") →
            f api1 = f api2)) ∧
    (∀ other : String, blogGlob other = blogGlob "es" → other = "es")) :=
  ⟨by simp [sampleImports],
   blog_collection_reverses_filtered_glob sampleImports none "undefined" "es"
     (by simp [sampleImports])⟩

end Eleventy
